import Mathlib

/-!
Shallow embedding of the photo-management server (`server.js`) and proofs of
the specification's testable properties.

The embedding models the Express route handlers as pure Lean functions over
explicit database state (lists of rows).  Timestamps are `Nat` milliseconds,
SQL `NULL`able columns are `Option`, and every handler returns its HTTP
outcome as an inductive result together with the updated state (or an event
trace for the streaming endpoints).
-/

namespace PhotoSystem

/-- User roles, from the `users.role` CHECK constraint. -/
inductive Role
  | admin
  | subAdmin
  | merchant
  | customer
  deriving DecidableEq, Repr

/-- Account status, from the `users.status` CHECK constraint. -/
inductive UserStatus
  | active
  | disabled
  deriving DecidableEq, Repr

/-- A row of the `users` table (columns relevant to the verified routes). -/
structure User where
  id : Nat
  username : String
  role : Role
  status : UserStatus
  disableReason : Option String
  createdAt : Nat
  deriving DecidableEq, Repr

/-- File lifecycle status (`file_uploads.status`): soft-delete flag. -/
inductive FileStatus
  | active
  | deleted
  deriving DecidableEq, Repr

/-- Merchant triage status (`file_uploads.process_status`). -/
inductive ProcessStatus
  | received
  | processing
  | shipped
  deriving DecidableEq, Repr

/-- Derived file class (`file_uploads.file_type`). -/
inductive FileType
  | image
  | archive
  deriving DecidableEq, Repr

/-- A row of the `file_uploads` table.  `editCount` and `lastEditTime` are
nullable in SQLite (the handler reads `edit_count || 0` and the update uses
`COALESCE(edit_count, 0) + 1`). -/
structure FileUpload where
  id : Nat
  userId : Nat
  merchantId : Nat
  originalName : String
  fileName : String
  fileSize : Nat
  fileType : FileType
  mimeType : String
  remarks : Option String
  editCount : Option Nat
  lastEditTime : Option Nat
  uploadTime : Nat
  status : FileStatus
  processStatus : ProcessStatus
  deriving DecidableEq, Repr

/-! ## Remarks editing (`PUT /api/uploads/:id/remarks`) -/

/-- Outcomes of the remarks-edit route other than success. -/
inductive RemarksError
  | tooLong
  | notFound
  | fileDeleted
  | capReached
  deriving DecidableEq, Repr

/-- `file.edit_count || 0` as read by the handler. -/
def editCountVal (f : FileUpload) : Nat :=
  f.editCount.getD 0

/-- The remarks-edit handler.  `file` is the result of the ownership-scoped
lookup `SELECT * FROM file_uploads WHERE id = ? AND user_id = ?`; `now` is the
update timestamp.  Returns the updated row and the reported `editCount`. -/
def editRemarks (file : Option FileUpload) (remarks : String) (now : Nat) :
    Except RemarksError (FileUpload × Nat) :=
  if remarks.length > 500 then .error .tooLong
  else
    match file with
    | none => .error .notFound
    | some f =>
      if f.status = .deleted then .error .fileDeleted
      else if editCountVal f ≥ 10 then .error .capReached
      else
        .ok ({ f with
                remarks := some remarks,
                editCount := some (editCountVal f + 1),
                lastEditTime := some now },
             editCountVal f + 1)

/-- State transition of one edit request: on any error the route returns
before the `UPDATE`, so the row is unchanged. -/
def applyEditRemarks (f : FileUpload) (remarks : String) (now : Nat) : FileUpload :=
  match editRemarks (some f) remarks now with
  | .ok (g, _) => g
  | .error _ => f

/-- Run a sequence of remark-edit requests (`remarks`, timestamp) by the owner. -/
def runEdits (f : FileUpload) : List (String × Nat) → FileUpload
  | [] => f
  | (r, t) :: rest => runEdits (applyEditRemarks f r t) rest

/-! ## Soft delete and restore (`DELETE /api/uploads/:id`,
`PUT /api/uploads/:id/restore`) -/

/-- Outcomes of delete/restore other than success. -/
inductive LifecycleError
  | notFound
  | conflict
  deriving DecidableEq, Repr

/-- The soft-delete handler over the ownership-scoped lookup result. -/
def softDeleteFile (file : Option FileUpload) : Except LifecycleError FileUpload :=
  match file with
  | none => .error .notFound
  | some f =>
    if f.status = .deleted then .error .conflict
    else .ok { f with status := .deleted }

/-- The restore handler over the ownership-scoped lookup result. -/
def restoreFile (file : Option FileUpload) : Except LifecycleError FileUpload :=
  match file with
  | none => .error .notFound
  | some f =>
    if f.status ≠ .deleted then .error .conflict
    else .ok { f with status := .active }

/-! ## User status change (`PATCH /api/admin/users/:id/status`) -/

/-- Outcomes of the status-change route. -/
inductive StatusChangeResult
  | validationError
  | missingReason
  | forbidden
  | notFound
  | ok
  deriving DecidableEq, Repr

/-- JS truthiness of the `reason` body field (`!reason` is true for a missing
field and for the empty string). -/
def reasonProvided : Option String → Bool
  | none => false
  | some r => !r.isEmpty

/-- Decimal digit test for the route-parameter text. -/
def isDigitChar (c : Char) : Bool :=
  '0' ≤ c && c ≤ '9'

/-- Parse of a non-empty all-digit string to its numeric value (`"01"` and
`"1"` both parse to 1); any other text yields `none`. -/
def parseDecimal? (s : String) : Option Nat :=
  if s.toList ≠ [] ∧ s.toList.all isDigitChar then
    some (s.toList.foldl (fun acc c => acc * 10 + (c.toNat - 48)) 0)
  else none

/-- SQLite comparison `id = ?` of the INTEGER `id` column against a TEXT
binding: numeric affinity converts a well-formed numeric text and compares
numerically (so the parameter `"01"` matches id 1); non-numeric text never
equals an integer. -/
def sqliteIdMatches (col : Nat) (param : String) : Bool :=
  match parseDecimal? param with
  | some n => col == n
  | none => false

/-- The status-change handler over the raw route parameter: express-validator
(`reason` optional but non-empty when present), the `disabled`-needs-reason
check, then the guard `id === '1'` — a string comparison on the unparsed
parameter — and finally the lookup and `UPDATE`, whose `WHERE id = ?` binds
that same raw text and compares it under SQLite numeric affinity (disable
stores the reason, enable clears it). -/
def updateUserStatus (users : List User) (idParam : String) (status : UserStatus)
    (reason : Option String) : List User × StatusChangeResult :=
  if reason.any (·.isEmpty) then (users, .validationError)
  else if status = .disabled ∧ reasonProvided reason = false then (users, .missingReason)
  else if idParam = "1" then (users, .forbidden)
  else
    match users.find? (fun u => sqliteIdMatches u.id idParam) with
    | none => (users, .notFound)
    | some _ =>
      (users.map (fun u =>
        if sqliteIdMatches u.id idParam then
          match status with
          | .disabled => { u with status := .disabled, disableReason := reason }
          | .active => { u with status := .active, disableReason := none }
        else u), .ok)

/-! ## Duplicate-name pre-flight check (`POST /api/check-duplicate-files`) -/

/-- Kinds of SQL statements a handler executes, for read-only tracing. -/
inductive DbOp
  | read
  | write
  deriving DecidableEq, Repr

/-- The duplicate-check handler.  Returns the HTTP error code or the list of
duplicate names, together with the trace of database operations executed. -/
def checkDuplicateFiles (role : Role) (uid : Nat) (merchantId : Option Nat)
    (fileNames : Option (List String)) (files : List FileUpload) :
    Except Nat (List String) × List DbOp :=
  if role ≠ .customer then (.error 403, [])
  else if merchantId.getD 0 = 0 ∨ fileNames = none then (.error 400, [])
  else
    let mid := merchantId.getD 0
    let names := fileNames.getD []
    let dups := (files.filter (fun f =>
      f.userId == uid && f.merchantId == mid && names.contains f.originalName)).map
        (·.originalName)
    (.ok dups, [.read])

/-! ## Upload pipeline (`POST /api/upload`, multer configuration, `fileFilter`) -/

/-- One multipart file as multer presents it (original name already decoded). -/
structure IncomingFile where
  originalName : String
  mimetype : String
  size : Nat
  deriving DecidableEq, Repr

/-- Allowed image MIME types from `fileFilter`. -/
def imageTypes : List String :=
  ["image/jpeg", "image/jpg", "image/png", "image/gif", "image/webp"]

/-- Allowed archive MIME types from `fileFilter`. -/
def archiveTypes : List String :=
  ["application/zip", "application/x-zip-compressed", "application/x-rar-compressed",
   "application/vnd.rar", "application/x-rar", "application/x-7z-compressed"]

/-- Allowed image extensions from `fileFilter`. -/
def imageExtensions : List String := [".jpg", ".jpeg", ".png", ".gif", ".webp"]

/-- Allowed archive extensions from `fileFilter`. -/
def archiveExtensions : List String := [".zip", ".rar", ".7z"]

/-- Index (from the left) of the last occurrence of `c`, if any. -/
def lastIdxOf (c : Char) : List Char → Option Nat
  | [] => none
  | x :: xs =>
    match lastIdxOf c xs with
    | some i => some (i + 1)
    | none => if x = c then some 0 else none

/-- `path.extname`: the suffix from the last dot, empty when there is no dot
or the only dot is the leading character. -/
def extname (s : String) : String :=
  match lastIdxOf '.' s.toList with
  | none => ""
  | some 0 => ""
  | some i => String.mk (s.toList.drop i)

/-- ASCII lower-casing of one character (`toLowerCase` on the extension). -/
def lowerChar (c : Char) : Char :=
  if 'A' ≤ c ∧ c ≤ 'Z' then Char.ofNat (c.toNat + 32) else c

/-- ASCII lower-casing of a string. -/
def lowerString (s : String) : String :=
  String.mk (s.toList.map lowerChar)

/-- `s.startsWith(pre)` over the character lists. -/
def strStartsWith (s pre : String) : Bool :=
  pre.toList.isPrefixOf s.toList

/-- Lower-cased extension of a file, as both `fileFilter` and the handler
compute it. -/
def fileExt (f : IncomingFile) : String :=
  lowerString (extname f.originalName)

/-- multer's `fileFilter`: accept when the MIME type or the extension is in
the allowed image/archive sets. -/
def fileFilter (f : IncomingFile) : Bool :=
  (imageTypes ++ archiveTypes).contains f.mimetype
    || (imageExtensions ++ archiveExtensions).contains (fileExt f)

/-- multer `limits.fileSize` (also the aggregate image cap in the handler). -/
def maxFileSize : Nat := 50 * 1024 * 1024

/-- multer `limits.files` / `upload.array('files', 20)`. -/
def maxFiles : Nat := 20

/-- multer pre-processing: every batch with more than 20 files, a rejected
file type, or an over-sized single file errors out before the handler runs. -/
def multerCheck (files : List IncomingFile) : Bool :=
  files.length ≤ maxFiles && files.all (fun f => fileFilter f && f.size ≤ maxFileSize)

/-- The handler's image test: MIME prefix `image/` or an image extension. -/
def isImageFile (f : IncomingFile) : Bool :=
  strStartsWith f.mimetype "image/" || imageExtensions.contains (fileExt f)

/-- Rejection reasons of the upload route, in the order they are checked. -/
inductive UploadReject
  | multerError
  | missingMerchant
  | noFiles
  | merchantNotFound
  | merchantDisabled
  | tooManyImages
  | imagesTooLarge
  deriving DecidableEq, Repr

/-- A row as the upload loop inserts it into `file_uploads` (the columns the
claims are about; ids and paths are assigned by the store). -/
structure InsertedRow where
  userId : Nat
  merchantId : Nat
  originalName : String
  fileType : FileType
  size : Nat
  deriving DecidableEq, Repr

/-- The upload route: multer, then the handler's field/merchant/size checks,
then (only when everything passed) one insert per file.  Returns the new
`file_uploads` contents and the manifest or the rejection. -/
def uploadFiles (users : List User) (uid : Nat) (merchantId : Option Nat)
    (files : List IncomingFile) (db : List InsertedRow) :
    List InsertedRow × Except UploadReject (List InsertedRow) :=
  if !multerCheck files then (db, .error .multerError)
  else
    match merchantId with
    | none => (db, .error .missingMerchant)
    | some mid =>
      if files.isEmpty then (db, .error .noFiles)
      else
        match users.find? (fun u => u.id == mid && u.role == Role.merchant) with
        | none => (db, .error .merchantNotFound)
        | some m =>
          if m.status = .disabled then (db, .error .merchantDisabled)
          else if (files.filter isImageFile).length > 20 then (db, .error .tooManyImages)
          else if ((files.filter isImageFile).map (fun f => f.size)).sum > maxFileSize then
            (db, .error .imagesTooLarge)
          else
            (db ++ files.map (fun f =>
              { userId := uid, merchantId := mid, originalName := f.originalName,
                fileType := if isImageFile f then FileType.image else FileType.archive,
                size := f.size : InsertedRow }),
             .ok (files.map (fun f =>
              { userId := uid, merchantId := mid, originalName := f.originalName,
                fileType := if isImageFile f then FileType.image else FileType.archive,
                size := f.size : InsertedRow })))

/-! ## Query/filter engine (`GET /api/uploads`,
`GET /api/merchant/customer/:customerId/photos`) -/

/-- The `timeFilter` query parameter values the switch recognises. -/
inductive TimeFilterParam
  | today
  | week
  | month
  | custom
  deriving DecidableEq, Repr

/-- Parsed list-request query string.  `page`/`limit` are `parseInt` results
(`none` for absent or NaN); `startDate`/`endDate` are start-of-day timestamps
of the supplied dates. -/
structure ListQuery where
  page : Option Nat
  limit : Option Nat
  status : Option String
  timeFilter : Option TimeFilterParam
  startDate : Option Nat
  endDate : Option Nat
  deriving DecidableEq, Repr

/-- `parseInt(page) || 1`. -/
def pageNumOf (q : ListQuery) : Nat :=
  match q.page with
  | none => 1
  | some 0 => 1
  | some n => n

/-- `parseInt(limit) || d` where `d` is the endpoint's default. -/
def limitNumOf (q : ListQuery) (d : Nat) : Nat :=
  match q.limit with
  | none => d
  | some 0 => d
  | some n => n

/-- One entry of the `whereConditions` array. -/
inductive SqlCond
  | userEq (uid : Nat)
  | merchantEq (mid : Nat)
  | processEq (s : ProcessStatus)
  | timeGe (t : Nat)
  | timeBetween (a b : Nat)
  deriving DecidableEq, Repr

/-- Evaluation of one WHERE condition against a `file_uploads` row. -/
def condHolds (f : FileUpload) : SqlCond → Bool
  | .userEq uid => f.userId == uid
  | .merchantEq mid => f.merchantId == mid
  | .processEq s => f.processStatus == s
  | .timeGe t => t ≤ f.uploadTime
  | .timeBetween a b => a ≤ f.uploadTime && f.uploadTime ≤ b

/-- Conjunction of the built WHERE conditions. -/
def matchesAll (conds : List SqlCond) (f : FileUpload) : Bool :=
  conds.all (condHolds f)

/-- One SQL placeholder value. -/
inductive SqlParam
  | nat (v : Nat)
  | str (v : String)
  deriving DecidableEq, Repr

/-- `['received', 'processing', 'shipped'].includes(status)` with the parse. -/
def parseProcessStatus : String → Option ProcessStatus
  | "received" => some .received
  | "processing" => some .processing
  | "shipped" => some .shipped
  | _ => none

/-- The three arrays both list endpoints build in parallel: the shared
`whereConditions` and the separately pushed `queryParams`/`countParams`. -/
structure QueryBuild where
  conds : List SqlCond
  queryParams : List SqlParam
  countParams : List SqlParam
  deriving DecidableEq, Repr

/-- Milliseconds per day. -/
def dayMs : Nat := 86400000

/-- Midnight of the day containing `now` (`new Date(y, m, d)`). -/
def startOfDay (now : Nat) : Nat :=
  now - now % dayMs

/-- The status-filter block: a valid `process_status` value appends one
condition and pushes the value to both parameter arrays. -/
def addStatusFilter (q : ListQuery) (b : QueryBuild) : QueryBuild :=
  match q.status with
  | none => b
  | some s =>
    match parseProcessStatus s with
    | none => b
    | some ps =>
      { conds := b.conds ++ [.processEq ps],
        queryParams := b.queryParams ++ [.str s],
        countParams := b.countParams ++ [.str s] }

/-- The time-filter switch: today/week/month push one lower bound, custom
with both dates pushes an inclusive day range, to both parameter arrays. -/
def addTimeFilter (q : ListQuery) (now : Nat) (b : QueryBuild) : QueryBuild :=
  match q.timeFilter with
  | none => b
  | some tf =>
    match tf with
    | .today =>
      let t := startOfDay now
      { conds := b.conds ++ [.timeGe t],
        queryParams := b.queryParams ++ [.nat t],
        countParams := b.countParams ++ [.nat t] }
    | .week =>
      let t := now - 7 * dayMs
      { conds := b.conds ++ [.timeGe t],
        queryParams := b.queryParams ++ [.nat t],
        countParams := b.countParams ++ [.nat t] }
    | .month =>
      let t := now - 30 * dayMs
      { conds := b.conds ++ [.timeGe t],
        queryParams := b.queryParams ++ [.nat t],
        countParams := b.countParams ++ [.nat t] }
    | .custom =>
      match q.startDate, q.endDate with
      | some s, some e =>
        let endTs := e + (dayMs - 1)
        { conds := b.conds ++ [.timeBetween s endTs],
          queryParams := b.queryParams ++ [.nat s, .nat endTs],
          countParams := b.countParams ++ [.nat s, .nat endTs] }
      | _, _ => b

/-- `GET /api/uploads`: base arrays before the filter blocks
(`whereConditions = ['fu.user_id = ?']`, both param arrays start with the
caller's id). -/
def uploadsBuild (uid : Nat) (q : ListQuery) (now : Nat) : QueryBuild :=
  addTimeFilter q now (addStatusFilter q
    { conds := [.userEq uid], queryParams := [.nat uid], countParams := [.nat uid] })

/-- `GET /api/merchant/customer/:cid/photos`: base arrays before the filter
blocks.  `queryParams` carries one extra leading merchant id for the
`download_status` LEFT JOIN; the WHERE part binds the customer then the
merchant. -/
def photosBuild (mid cid : Nat) (q : ListQuery) (now : Nat) : QueryBuild :=
  addTimeFilter q now (addStatusFilter q
    { conds := [.userEq cid, .merchantEq mid],
      queryParams := [.nat mid, .nat cid, .nat mid],
      countParams := [.nat cid, .nat mid] })

/-- ORDER BY key of both file lists: active rows before deleted rows, then
upload time descending. -/
def rowLe (a b : FileUpload) : Bool :=
  let ka : Nat := if a.status = .deleted then 1 else 0
  let kb : Nat := if b.status = .deleted then 1 else 0
  ka < kb || (ka == kb && b.uploadTime ≤ a.uploadTime)

/-- Insert into a sorted list (structural sort used to model ORDER BY). -/
def insertSorted (x : FileUpload) : List FileUpload → List FileUpload
  | [] => [x]
  | y :: ys => if rowLe x y then x :: y :: ys else y :: insertSorted x ys

/-- Sort rows by the ORDER BY key. -/
def sortRows : List FileUpload → List FileUpload
  | [] => []
  | x :: xs => insertSorted x (sortRows xs)

/-- The `pagination` object both list endpoints return. -/
structure PageInfo where
  page : Nat
  limit : Nat
  total : Nat
  pages : Nat
  deriving DecidableEq, Repr

/-- `Math.ceil(total / limit)` for natural inputs with `limit > 0`. -/
def mathCeilDiv (total limit : Nat) : Nat :=
  (total + limit - 1) / limit

/-- A list response: the page of rows plus the pagination object. -/
structure ListResponse where
  rows : List FileUpload
  pagination : PageInfo
  deriving DecidableEq, Repr

/-- Evaluate a built query against the store: the list query (ORDER BY,
LIMIT, OFFSET over the WHERE conditions) and the count query (COUNT over the
same `whereConditions` array). -/
def runListQuery (db : List FileUpload) (b : QueryBuild) (pageNum limitNum : Nat) :
    ListResponse :=
  let filtered := db.filter (matchesAll b.conds)
  let offset := (pageNum - 1) * limitNum
  let total := filtered.length
  { rows := ((sortRows filtered).drop offset).take limitNum,
    pagination :=
      { page := pageNum, limit := limitNum, total := total,
        pages := mathCeilDiv total limitNum } }

/-- `GET /api/uploads`: the caller-scoped, filtered, paginated file list. -/
def listUploads (db : List FileUpload) (uid : Nat) (q : ListQuery) (now : Nat) :
    ListResponse :=
  runListQuery db (uploadsBuild uid q now) (pageNumOf q) (limitNumOf q 10)

/-- `GET /api/merchant/customer/:cid/photos`: merchant-role gate, customer
status gate, then the filtered paginated photo list. -/
def merchantCustomerPhotos (users : List User) (db : List FileUpload)
    (role : Role) (mid cid : Nat) (q : ListQuery) (now : Nat) :
    Except Nat ListResponse :=
  if role ≠ .merchant then .error 403
  else
    match users.find? (fun u => u.id == cid && u.role == Role.customer) with
    | none => .error 404
    | some c =>
      if c.status ≠ .active then .error 403
      else .ok (runListQuery db (photosBuild mid cid q now) (pageNumOf q) (limitNumOf q 20))

/-! ## Archive builder and download ledger
(`GET /api/merchant/customer/:cid/download-all`,
`GET /api/merchant/customer/:cid/download-selected`,
`recordDownloadStatus`) -/

/-- `download_status.download_type`. -/
inductive DlType
  | single
  | batch
  deriving DecidableEq, Repr

/-- `download_status.status`. -/
inductive DlResult
  | success
  | failed
  deriving DecidableEq, Repr

/-- One `download_status` ledger row (the columns the claims are about). -/
structure DownloadRecordRow where
  fileId : Nat
  merchantId : Nat
  downloadType : DlType
  status : DlResult
  deriving DecidableEq, Repr

/-- Observable effects of a download request, in execution order. -/
inductive DlEvent
  | ledger (r : DownloadRecordRow)
  | oplog (op : String)
  | stream (fileId : Nat)
  deriving DecidableEq, Repr

/-- The `recordDownloadStatus` helper: one ledger insert. -/
def recordDownloadStatus (fileId mid : Nat) (t : DlType) (s : DlResult) : DlEvent :=
  .ledger { fileId := fileId, merchantId := mid, downloadType := t, status := s }

/-- The HTTP outcome of a download request. -/
inductive DlResponse
  | httpError (code : Nat)
  | singleFile (fileId : Nat)
  | zipArchive (fileIds : List Nat)
  deriving DecidableEq, Repr

/-- The shared ZIP phase of both batch endpoints: walk the resolved photos,
add each file that exists on disk and record a `batch`/`failed` row for each
missing one; after the last photo, destroy the archive and answer 404 when
nothing was added, otherwise finalize — and the archive `end` handler then
records a `batch`/`success` row for every resolved photo (added or not) plus
one operation-log entry. -/
def zipPhase (mid : Nat) (photos : List FileUpload) (onDisk : Nat → Bool) :
    DlResponse × List DlEvent :=
  let missing := photos.filter (fun p => !(onDisk p.id))
  let added := photos.filter (fun p => onDisk p.id)
  let failEvents := missing.map (fun p => recordDownloadStatus p.id mid .batch .failed)
  if added.isEmpty then
    (.httpError 404, failEvents)
  else
    (.zipArchive (added.map (·.id)),
      failEvents
        ++ photos.map (fun p => recordDownloadStatus p.id mid .batch .success)
        ++ [.oplog "batch_download"])

/-- Resolution of the download-all endpoint: every active row of the
(customer, merchant) pair. -/
def resolveActivePhotos (db : List FileUpload) (cid mid : Nat) : List FileUpload :=
  db.filter (fun f => f.userId == cid && f.merchantId == mid && f.status == FileStatus.active)

/-- `GET /api/merchant/customer/:cid/download-all` after the token/role
gates: resolve, 404 on empty, then always the ZIP phase. -/
def downloadAll (db : List FileUpload) (cid mid : Nat) (onDisk : Nat → Bool) :
    DlResponse × List DlEvent :=
  let photos := resolveActivePhotos db cid mid
  if photos.isEmpty then (.httpError 404, [])
  else zipPhase mid photos onDisk

/-- Resolution of the download-selected endpoint: the requested ids filtered
to active rows of the (customer, merchant) pair. -/
def resolveSelectedPhotos (db : List FileUpload) (ids : List Nat) (cid mid : Nat) :
    List FileUpload :=
  db.filter (fun f =>
    ids.contains f.id && f.userId == cid && f.merchantId == mid
      && f.status == FileStatus.active)

/-- `GET /api/merchant/customer/:cid/download-selected` after the token/role
and id-parsing gates: resolve, 404 on empty; with exactly one resolved photo
record a `single` ledger row, log, and stream the file directly (404 plus a
`single`/`failed` row when it is missing on disk); otherwise the ZIP phase. -/
def downloadSelected (db : List FileUpload) (ids : List Nat) (cid mid : Nat)
    (onDisk : Nat → Bool) : DlResponse × List DlEvent :=
  match resolveSelectedPhotos db ids cid mid with
  | [] => (.httpError 404, [])
  | [p] =>
    if onDisk p.id then
      (.singleFile p.id,
        [recordDownloadStatus p.id mid .single .success, .oplog "download", .stream p.id])
    else
      (.httpError 404, [recordDownloadStatus p.id mid .single .failed])
  | photos => zipPhase mid photos onDisk

/-- The ledger rows among a download's events. -/
def ledgerRows (evs : List DlEvent) : List DownloadRecordRow :=
  evs.filterMap (fun e =>
    match e with
    | .ledger r => some r
    | _ => none)

/-- Number of `success` ledger rows recorded. -/
def successCount (evs : List DlEvent) : Nat :=
  (ledgerRows evs).countP (fun r => r.status == DlResult.success)

/-- Number of `failed` ledger rows recorded. -/
def failedCount (evs : List DlEvent) : Nat :=
  (ledgerRows evs).countP (fun r => r.status == DlResult.failed)

/-! ## Concrete instances used by witnesses and counterexamples -/

/-- A sample active stored file. -/
def sampleFile : FileUpload :=
  { id := 1, userId := 7, merchantId := 3, originalName := "a.jpg", fileName := "1_a.jpg",
    fileSize := 100, fileType := .image, mimeType := "image/jpeg", remarks := none,
    editCount := none, lastEditTime := none, uploadTime := 5, status := .active,
    processStatus := .received }

/-- A second active stored file of the same customer/merchant pair. -/
def sampleFile2 : FileUpload :=
  { id := 2, userId := 7, merchantId := 3, originalName := "b.jpg", fileName := "2_b.jpg",
    fileSize := 200, fileType := .image, mimeType := "image/jpeg", remarks := none,
    editCount := none, lastEditTime := none, uploadTime := 6, status := .active,
    processStatus := .received }

/-- A two-user store: the bootstrap admin and one merchant. -/
def sampleUsers : List User :=
  [{ id := 1, username := "admin", role := .admin, status := .active,
     disableReason := none, createdAt := 0 },
   { id := 2, username := "m1", role := .merchant, status := .active,
     disableReason := none, createdAt := 1 }]

/-- On-disk presence map for the counterexamples: only file id 1 exists. -/
def onlyFirstOnDisk (n : Nat) : Bool :=
  n == 1

/-- The customer owning the sample files. -/
def sampleCustomer : User :=
  { id := 7, username := "c1", role := .customer, status := .active,
    disableReason := none, createdAt := 2 }

/-- An empty query string (all filters absent). -/
def qDefault : ListQuery :=
  { page := none, limit := none, status := none, timeFilter := none,
    startDate := none, endDate := none }

/-- A well-formed incoming image file. -/
def sampleIncoming : IncomingFile :=
  { originalName := "a.jpg", mimetype := "image/jpeg", size := 1000 }

/-- The photo-list response of the sample store. -/
def samplePhotosResp : ListResponse :=
  runListQuery [sampleFile] (photosBuild 3 7 qDefault 0) 1 20

/-! # Theorems -/

theorem applyEdit_editCount_le (f : FileUpload) (r : String) (t : Nat)
    (h : editCountVal f ≤ 10) : editCountVal (applyEditRemarks f r t) ≤ 10 := by
  unfold applyEditRemarks editRemarks
  by_cases h1 : r.length > 500
  · simpa [h1] using h
  · simp only [h1, if_false]
    by_cases h2 : f.status = FileStatus.deleted
    · simpa [h2] using h
    · by_cases h3 : editCountVal f ≥ 10
      · simpa [h2, h3] using h
      · simp only [h2, h3, if_false, if_true]
        simp [editCountVal] at h3 ⊢
        omega

theorem runEdits_editCount_le (reqs : List (String × Nat)) :
    ∀ f : FileUpload, editCountVal f ≤ 10 → editCountVal (runEdits f reqs) ≤ 10 := by
  induction reqs with
  | nil => intro f h; simpa [runEdits] using h
  | cons p rest ih =>
    intro f h
    obtain ⟨r, t⟩ := p
    simpa [runEdits] using ih _ (applyEdit_editCount_le f r t h)

theorem editRemarks_rejected (f : FileUpload) (r : String) (now : Nat)
    (h : editCountVal f = 10 ∨ f.status = FileStatus.deleted) :
    ∃ e, editRemarks (some f) r now = .error e := by
  unfold editRemarks
  by_cases h1 : r.length > 500
  · exact ⟨.tooLong, by simp [h1]⟩
  · by_cases h2 : f.status = FileStatus.deleted
    · exact ⟨.fileDeleted, by simp [h1, h2]⟩
    · have h3 : editCountVal f ≥ 10 := by
        rcases h with h | h
        · omega
        · exact absurd h h2
      exact ⟨.capReached, by simp [h1, h2, h3]⟩

/-- C1: `editCount` never exceeds 10 over any sequence of owner edit
requests; an edit is rejected (leaving the row unchanged) whenever
`editCount` is already 10 or the file is soft-deleted; every accepted edit
sets the remarks, increments `editCount` by exactly one and stamps
`lastEditTime`. -/
theorem C1_remarks_edit_bounded (f : FileUpload) (h : editCountVal f ≤ 10)
    (reqs : List (String × Nat)) :
    editCountVal (runEdits f reqs) ≤ 10
    ∧ (∀ r now, editCountVal f = 10 ∨ f.status = FileStatus.deleted →
        (∃ e, editRemarks (some f) r now = .error e) ∧ applyEditRemarks f r now = f)
    ∧ (∀ r now g n, editRemarks (some f) r now = .ok (g, n) →
        g.remarks = some r ∧ editCountVal g = editCountVal f + 1
          ∧ g.lastEditTime = some now ∧ n = editCountVal f + 1) := by
  refine ⟨runEdits_editCount_le reqs f h, ?_, ?_⟩
  · intro r now hrej
    obtain ⟨e, he⟩ := editRemarks_rejected f r now hrej
    exact ⟨⟨e, he⟩, by simp [applyEditRemarks, he]⟩
  · intro r now g n hok
    unfold editRemarks at hok
    by_cases h1 : r.length > 500
    · simp [h1] at hok
    · simp only [h1, if_false] at hok
      by_cases h2 : f.status = FileStatus.deleted
      · simp [h2] at hok
      · by_cases h3 : editCountVal f ≥ 10
        · simp [h2, h3] at hok
        · simp only [h2, h3, if_false, if_true] at hok
          obtain ⟨hg, hn⟩ := by
            simpa using hok
          subst hg
          simp [editCountVal, hn.symm]

/-- C1 witness: the bound evaluated on a concrete file and edit sequence. -/
theorem C1_remarks_edit_bounded_witness :
    editCountVal (runEdits sampleFile [("note", 1), ("note2", 2)]) ≤ 10 :=
  (C1_remarks_edit_bounded sampleFile (by decide) [("note", 1), ("note2", 2)]).1

/-- C4: deleting an already-deleted asset and restoring an active asset are
both rejected as conflicts; soft-delete followed by restore on an active
asset returns exactly the original row (status back to `active`, every other
field unchanged). -/
theorem C4_delete_restore_roundtrip (f : FileUpload) :
    (f.status = FileStatus.deleted → softDeleteFile (some f) = .error .conflict)
    ∧ (f.status = FileStatus.active → restoreFile (some f) = .error .conflict)
    ∧ (f.status = FileStatus.active →
        ∃ g, softDeleteFile (some f) = .ok g ∧ restoreFile (some g) = .ok f) := by
  refine ⟨?_, ?_, ?_⟩
  · intro h; simp [softDeleteFile, h]
  · intro h; simp [restoreFile, h]
  · intro h
    refine ⟨{ f with status := .deleted }, by simp [softDeleteFile, h], ?_⟩
    simp only [restoreFile]
    cases f
    simp_all

/-- C4 witness: the round trip evaluated on a concrete active file. -/
theorem C4_delete_restore_roundtrip_witness :
    ∃ g, softDeleteFile (some sampleFile) = .ok g
      ∧ restoreFile (some g) = .ok sampleFile :=
  (C4_delete_restore_roundtrip sampleFile).2.2 (by decide)

/-- C8: the bootstrap-admin guard compares the raw route parameter against
the string "1", but the lookup and `UPDATE` compare that same text
numerically against the INTEGER id column, so the parameter "01" slips past
the guard and disables user 1 with the reason stored — the code evaluated at
the failing input, next to the literal "1" request that the guard does
reject on the same store. -/
theorem C8_admin_one_disable_bug :
    (updateUserStatus sampleUsers "1" UserStatus.disabled (some "x")).2
        = StatusChangeResult.forbidden
    ∧ (updateUserStatus sampleUsers "1" UserStatus.disabled (some "x")).1 = sampleUsers
    ∧ (updateUserStatus sampleUsers "01" UserStatus.disabled (some "x")).2
        = StatusChangeResult.ok
    ∧ (updateUserStatus sampleUsers "01" UserStatus.disabled (some "x")).1
        = [{ id := 1, username := "admin", role := .admin, status := .disabled,
             disableReason := some "x", createdAt := 0 },
           { id := 2, username := "m1", role := .merchant, status := .active,
             disableReason := none, createdAt := 1 }] := by
  decide

/-- C10: the duplicate check answers 403 with no database operation for every
non-customer caller, and never performs a write for any caller. -/
theorem C10_duplicate_check_gate (role : Role) (uid : Nat) (m : Option Nat)
    (ns : Option (List String)) (files : List FileUpload) :
    (role ≠ .customer → checkDuplicateFiles role uid m ns files = (.error 403, []))
    ∧ DbOp.write ∉ (checkDuplicateFiles role uid m ns files).2 := by
  constructor
  · intro h
    simp [checkDuplicateFiles, h]
  · unfold checkDuplicateFiles
    split_ifs <;> simp

/-- C10 witness: a merchant caller gets 403 and an empty operation trace. -/
theorem C10_duplicate_check_gate_witness :
    checkDuplicateFiles .merchant 4 (some 3) (some ["a.jpg"]) [] = (.error 403, []) :=
  (C10_duplicate_check_gate .merchant 4 (some 3) (some ["a.jpg"]) []).1 (by decide)

theorem mem_insertSorted (x a : FileUpload) (l : List FileUpload)
    (h : a ∈ insertSorted x l) : a = x ∨ a ∈ l := by
  induction l with
  | nil =>
    simp [insertSorted] at h
    exact Or.inl h
  | cons y ys ih =>
    simp only [insertSorted] at h
    split_ifs at h
    · simpa using h
    · simp only [List.mem_cons] at h
      rcases h with h | h
      · exact Or.inr (by simp [h])
      · rcases ih h with h' | h'
        · exact Or.inl h'
        · exact Or.inr (by simp [h'])

theorem mem_sortRows (a : FileUpload) (l : List FileUpload)
    (h : a ∈ sortRows l) : a ∈ l := by
  induction l with
  | nil => simpa [sortRows] using h
  | cons x xs ih =>
    simp only [sortRows] at h
    rcases mem_insertSorted x a (sortRows xs) h with h' | h'
    · simp [h']
    · simp [ih h']

theorem addStatusFilter_spec (q : ListQuery) (b : QueryBuild) :
    ∃ cs ps, addStatusFilter q b =
      { conds := b.conds ++ cs, queryParams := b.queryParams ++ ps,
        countParams := b.countParams ++ ps } := by
  unfold addStatusFilter
  cases hs : q.status with
  | none => exact ⟨[], [], by simp [hs]⟩
  | some s =>
    cases hp : parseProcessStatus s with
    | none => exact ⟨[], [], by simp [hs, hp]⟩
    | some ps => exact ⟨[.processEq ps], [.str s], by simp [hs, hp]⟩

theorem addTimeFilter_spec (q : ListQuery) (now : Nat) (b : QueryBuild) :
    ∃ cs ps, addTimeFilter q now b =
      { conds := b.conds ++ cs, queryParams := b.queryParams ++ ps,
        countParams := b.countParams ++ ps } := by
  unfold addTimeFilter
  cases ht : q.timeFilter with
  | none => exact ⟨[], [], by simp [ht]⟩
  | some tf =>
    cases tf with
    | today => exact ⟨[.timeGe (startOfDay now)], [.nat (startOfDay now)], by simp [ht]⟩
    | week => exact ⟨[.timeGe (now - 7 * dayMs)], [.nat (now - 7 * dayMs)], by simp [ht]⟩
    | month => exact ⟨[.timeGe (now - 30 * dayMs)], [.nat (now - 30 * dayMs)], by simp [ht]⟩
    | custom =>
      cases hs : q.startDate with
      | none => exact ⟨[], [], by simp [ht, hs]⟩
      | some s =>
        cases he : q.endDate with
        | none => exact ⟨[], [], by simp [ht, hs, he]⟩
        | some e =>
          exact ⟨[.timeBetween s (e + (dayMs - 1))],
                 [.nat s, .nat (e + (dayMs - 1))], by simp [ht, hs, he]⟩

theorem uploadsBuild_spec (uid : Nat) (q : ListQuery) (now : Nat) :
    ∃ cs ps, uploadsBuild uid q now =
      { conds := SqlCond.userEq uid :: cs,
        queryParams := SqlParam.nat uid :: ps,
        countParams := SqlParam.nat uid :: ps } := by
  obtain ⟨cs1, ps1, h1⟩ := addStatusFilter_spec q
    { conds := [.userEq uid], queryParams := [.nat uid], countParams := [.nat uid] }
  obtain ⟨cs2, ps2, h2⟩ := addTimeFilter_spec q now (addStatusFilter q
    { conds := [.userEq uid], queryParams := [.nat uid], countParams := [.nat uid] })
  refine ⟨cs1 ++ cs2, ps1 ++ ps2, ?_⟩
  rw [uploadsBuild, h2, h1]
  simp

theorem photosBuild_spec (mid cid : Nat) (q : ListQuery) (now : Nat) :
    ∃ cs ps, photosBuild mid cid q now =
      { conds := SqlCond.userEq cid :: SqlCond.merchantEq mid :: cs,
        queryParams := SqlParam.nat mid :: SqlParam.nat cid :: SqlParam.nat mid :: ps,
        countParams := SqlParam.nat cid :: SqlParam.nat mid :: ps } := by
  obtain ⟨cs1, ps1, h1⟩ := addStatusFilter_spec q
    { conds := [.userEq cid, .merchantEq mid],
      queryParams := [.nat mid, .nat cid, .nat mid],
      countParams := [.nat cid, .nat mid] }
  obtain ⟨cs2, ps2, h2⟩ := addTimeFilter_spec q now (addStatusFilter q
    { conds := [.userEq cid, .merchantEq mid],
      queryParams := [.nat mid, .nat cid, .nat mid],
      countParams := [.nat cid, .nat mid] })
  refine ⟨cs1 ++ cs2, ps1 ++ ps2, ?_⟩
  rw [photosBuild, h2, h1]
  simp

/-- C3: every row the customer file list returns is owned by the caller:
no page, limit, status or time filter can surface another user's row. -/
theorem C3_customer_list_owner_scoped (db : List FileUpload) (uid : Nat)
    (q : ListQuery) (now : Nat) (f : FileUpload)
    (h : f ∈ (listUploads db uid q now).rows) : f.userId = uid := by
  obtain ⟨cs, ps, hb⟩ := uploadsBuild_spec uid q now
  have h1 : f ∈ sortRows (db.filter (matchesAll (uploadsBuild uid q now).conds)) := by
    have h2 := List.take_subset _ _ h
    exact List.drop_subset _ _ h2
  have h3 : f ∈ db.filter (matchesAll (uploadsBuild uid q now).conds) :=
    mem_sortRows _ _ h1
  have h4 : matchesAll (uploadsBuild uid q now).conds f = true :=
    (List.mem_filter.mp h3).2
  rw [hb] at h4
  simp only [matchesAll, List.all_cons, Bool.and_eq_true] at h4
  have h5 : condHolds f (.userEq uid) = true := h4.1
  simpa [condHolds] using h5

/-- C3 witness: a concrete list request returning the caller's row. -/
theorem C3_customer_list_owner_scoped_witness :
    sampleFile ∈ (listUploads [sampleFile] 7 qDefault 0).rows
      ∧ sampleFile.userId = 7 :=
  ⟨by decide, C3_customer_list_owner_scoped [sampleFile] 7 qDefault 0 sampleFile (by decide)⟩

theorem limitNumOf_pos (q : ListQuery) (d : Nat) (hd : 0 < d) : 0 < limitNumOf q d := by
  unfold limitNumOf
  cases q.limit with
  | none => exact hd
  | some n =>
    cases n with
    | zero => exact hd
    | succ k => exact Nat.succ_pos k

theorem mathCeilDiv_bounds (t l : Nat) (hl : 0 < l) :
    t ≤ mathCeilDiv t l * l ∧ mathCeilDiv t l * l < t + l := by
  unfold mathCeilDiv
  cases t with
  | zero =>
    have h0 : (0 + l - 1) / l = 0 := Nat.div_eq_of_lt (by omega)
    rw [h0]
    simpa using hl
  | succ s =>
    have hms : (s + 1 + l - 1) / l = s / l + 1 := by
      have hsl : s + 1 + l - 1 = s + l := by omega
      rw [hsl, Nat.add_div_right s hl]
    rw [hms]
    have hsd := Nat.div_add_mod s l
    have hsm : s % l < l := Nat.mod_lt s hl
    constructor
    · have hexp : (s / l + 1) * l = l * (s / l) + l := by ring
      rw [hexp]
      generalize hA : l * (s / l) = A at hsd ⊢
      omega
    · have hexp : (s / l + 1) * l = l * (s / l) + l := by ring
      rw [hexp]
      generalize hA : l * (s / l) = A at hsd ⊢
      omega

theorem mathCeilDiv_eq_ceil (t l : Nat) (hl : 0 < l) :
    (mathCeilDiv t l : ℤ) = ⌈(t : ℚ) / (l : ℚ)⌉ := by
  obtain ⟨h1, h2⟩ := mathCeilDiv_bounds t l hl
  have hl' : (0 : ℚ) < (l : ℚ) := by exact_mod_cast hl
  rw [eq_comm, Int.ceil_eq_iff]
  constructor
  · rw [lt_div_iff hl']
    have h2' : (mathCeilDiv t l : ℚ) * l < t + l := by exact_mod_cast h2
    push_cast
    nlinarith
  · rw [div_le_iff hl']
    have h1' : (t : ℚ) ≤ (mathCeilDiv t l : ℚ) * l := by exact_mod_cast h1
    push_cast
    linarith

/-- C5: for both list endpoints the reported `pages` is the exact rational
ceiling of `total / limit`; the reported `total` counts exactly the rows of
the same WHERE predicate the list query uses; and the separately built
parameter arrays of the count query and the list query agree on every filter
value (the list query only adds the leading JOIN binding and the trailing
LIMIT/OFFSET). -/
theorem C5_pagination_consistency (db : List FileUpload) (uid mid cid : Nat)
    (q : ListQuery) (now : Nat) (users : List User) (role : Role)
    (resp : ListResponse) :
    (((listUploads db uid q now).pagination.pages : ℤ)
        = ⌈((listUploads db uid q now).pagination.total : ℚ)
            / ((listUploads db uid q now).pagination.limit : ℚ)⌉
      ∧ (listUploads db uid q now).pagination.total
          = (db.filter (matchesAll (uploadsBuild uid q now).conds)).length
      ∧ (uploadsBuild uid q now).queryParams = (uploadsBuild uid q now).countParams)
    ∧ (merchantCustomerPhotos users db role mid cid q now = .ok resp →
        ((resp.pagination.pages : ℤ)
            = ⌈(resp.pagination.total : ℚ) / (resp.pagination.limit : ℚ)⌉
          ∧ resp.pagination.total
              = (db.filter (matchesAll (photosBuild mid cid q now).conds)).length
          ∧ (photosBuild mid cid q now).queryParams
              = SqlParam.nat mid :: (photosBuild mid cid q now).countParams)) := by
  constructor
  · refine ⟨?_, rfl, ?_⟩
    · exact mathCeilDiv_eq_ceil _ _ (limitNumOf_pos q 10 (by omega))
    · obtain ⟨cs, ps, hb⟩ := uploadsBuild_spec uid q now
      rw [hb]
  · intro hok
    unfold merchantCustomerPhotos at hok
    by_cases hrole : role ≠ Role.merchant
    · rw [if_pos hrole] at hok
      exact absurd hok (by simp)
    · rw [if_neg hrole] at hok
      cases hfind : users.find? (fun u => u.id == cid && u.role == Role.customer) with
      | none => rw [hfind] at hok; simp at hok
      | some c =>
        rw [hfind] at hok
        have hok' : (if c.status ≠ UserStatus.active then (Except.error 403 : Except Nat ListResponse)
            else .ok (runListQuery db (photosBuild mid cid q now) (pageNumOf q) (limitNumOf q 20)))
              = .ok resp := hok
        by_cases hstat : c.status ≠ UserStatus.active
        · rw [if_pos hstat] at hok'
          exact absurd hok' (by simp)
        · rw [if_neg hstat] at hok'
          have hresp : resp
              = runListQuery db (photosBuild mid cid q now) (pageNumOf q) (limitNumOf q 20) := by
            cases hok'
            rfl
          subst hresp
          refine ⟨?_, rfl, ?_⟩
          · exact mathCeilDiv_eq_ceil _ _ (limitNumOf_pos q 20 (by omega))
          · obtain ⟨cs, ps, hb⟩ := photosBuild_spec mid cid q now
            rw [hb]

/-- C5 witness: the merchant photo list of the sample store, with its
pagination and parameter facts instantiated. -/
theorem C5_pagination_consistency_witness :
    merchantCustomerPhotos [sampleCustomer] [sampleFile] .merchant 3 7 qDefault 0
        = .ok samplePhotosResp
    ∧ ((samplePhotosResp.pagination.pages : ℤ)
          = ⌈(samplePhotosResp.pagination.total : ℚ) / (samplePhotosResp.pagination.limit : ℚ)⌉
        ∧ samplePhotosResp.pagination.total
            = (([sampleFile] : List FileUpload).filter
                (matchesAll (photosBuild 3 7 qDefault 0).conds)).length
        ∧ (photosBuild 3 7 qDefault 0).queryParams
            = SqlParam.nat 3 :: (photosBuild 3 7 qDefault 0).countParams) :=
  ⟨rfl, (C5_pagination_consistency [sampleFile] 7 3 7 qDefault 0 [sampleCustomer]
    .merchant samplePhotosResp).2 rfl⟩

/-- C7: a batch is stored only when the selected merchant exists with role
`merchant` and active status, 1 to 20 files are supplied, every file passes
the MIME-or-extension dual check, and the aggregate size of image-typed files
is at most 50MB (archive-typed files do not count toward that cap); and on
any rejection the `file_uploads` table is untouched. -/
theorem C7_upload_acceptance (users : List User) (uid : Nat) (merchantId : Option Nat)
    (files : List IncomingFile) (db : List InsertedRow) :
    (∀ rows, (uploadFiles users uid merchantId files db).2 = .ok rows →
      (∃ mid m, merchantId = some mid
        ∧ users.find? (fun u => u.id == mid && u.role == Role.merchant) = some m
        ∧ m.role = .merchant ∧ m.status = .active)
      ∧ 1 ≤ files.length ∧ files.length ≤ 20
      ∧ (∀ f ∈ files, fileFilter f = true)
      ∧ ((files.filter isImageFile).map (fun f => f.size)).sum ≤ 50 * 1024 * 1024
      ∧ (uploadFiles users uid merchantId files db).1 = db ++ rows)
    ∧ (∀ e, (uploadFiles users uid merchantId files db).2 = .error e →
        (uploadFiles users uid merchantId files db).1 = db) := by
  constructor
  · intro rows hok
    rcases hu : uploadFiles users uid merchantId files db with ⟨db2, res⟩
    rw [hu] at hok
    replace hok : res = Except.ok rows := hok
    unfold uploadFiles at hu
    split at hu
    next hmc =>
      injection hu with h1 h2
      subst h1
      subst h2
      simp at hok
    next hmc =>
      have hmc' : multerCheck files = true := by
        simpa using hmc
      simp only [multerCheck, Bool.and_eq_true, decide_eq_true_eq,
        List.all_eq_true] at hmc'
      obtain ⟨hlen, hall⟩ := hmc'
      split at hu
      next =>
        injection hu with h1 h2
        subst h1
        subst h2
        simp at hok
      next mid =>
        split at hu
        next hemp =>
          injection hu with h1 h2
          subst h1
          subst h2
          simp at hok
        next hemp =>
          split at hu
          next hfind =>
            injection hu with h1 h2
            subst h1
            subst h2
            simp at hok
          next m hfind =>
            split at hu
            next hdis =>
              injection hu with h1 h2
              subst h1
              subst h2
              simp at hok
            next hdis =>
              split at hu
              next himg =>
                injection hu with h1 h2
                subst h1
                subst h2
                simp at hok
              next himg =>
                split at hu
                next hsz =>
                  injection hu with h1 h2
                  subst h1
                  subst h2
                  simp at hok
                next hsz =>
                  injection hu with h1 h2
                  subst h1
                  subst h2
                  injection hok with hrows
                  subst hrows
                  refine ⟨⟨mid, m, rfl, hfind, ?_, ?_⟩, ?_, ?_, ?_, ?_, rfl⟩
                  · have hp := List.find?_some hfind
                    simp only [Bool.and_eq_true, beq_iff_eq] at hp
                    exact hp.2
                  · cases hstat : m.status with
                    | active => rfl
                    | disabled => exact absurd hstat hdis
                  · have hne : files ≠ [] := by
                      intro hcontra
                      rw [hcontra] at hemp
                      simp at hemp
                    have := List.length_pos.mpr hne
                    omega
                  · exact hlen
                  · intro f hf
                    have hf' := hall f hf
                    simp only [Bool.and_eq_true] at hf'
                    exact hf'.1
                  · have hms : maxFileSize = 50 * 1024 * 1024 := rfl
                    omega
  · intro e herr
    rcases hu : uploadFiles users uid merchantId files db with ⟨db2, res⟩
    rw [hu] at herr
    replace herr : res = Except.error e := herr
    unfold uploadFiles at hu
    split at hu
    next hmc =>
      injection hu with h1 h2
      subst h1
      rfl
    next hmc =>
      split at hu
      next =>
        injection hu with h1 h2
        subst h1
        rfl
      next mid =>
        split at hu
        next hemp =>
          injection hu with h1 h2
          subst h1
          rfl
        next hemp =>
          split at hu
          next hfind =>
            injection hu with h1 h2
            subst h1
            rfl
          next m hfind =>
            split at hu
            next hdis =>
              injection hu with h1 h2
              subst h1
              rfl
            next hdis =>
              split at hu
              next himg =>
                injection hu with h1 h2
                subst h1
                rfl
              next himg =>
                split at hu
                next hsz =>
                  injection hu with h1 h2
                  subst h1
                  rfl
                next hsz =>
                  injection hu with h1 h2
                  subst h2
                  simp at herr

/-- C7 witness: a concrete accepted upload appends exactly its manifest, and
a concrete over-sized image batch leaves the table untouched. -/
theorem C7_upload_acceptance_witness :
    ((∃ mid m, (some 2 : Option Nat) = some mid
        ∧ sampleUsers.find? (fun u => u.id == mid && u.role == Role.merchant) = some m
        ∧ m.role = .merchant ∧ m.status = .active)
      ∧ 1 ≤ [sampleIncoming].length ∧ [sampleIncoming].length ≤ 20
      ∧ (∀ f ∈ [sampleIncoming], fileFilter f = true)
      ∧ (([sampleIncoming].filter isImageFile).map (fun f => f.size)).sum ≤ 50 * 1024 * 1024
      ∧ (uploadFiles sampleUsers 7 (some 2) [sampleIncoming] []).1
          = [] ++ [{ userId := 7, merchantId := 2, originalName := "a.jpg",
                     fileType := .image, size := 1000 }])
    ∧ (uploadFiles sampleUsers 7 (some 9) [sampleIncoming] []).1 = [] :=
  ⟨(C7_upload_acceptance sampleUsers 7 (some 2) [sampleIncoming] []).1
      [{ userId := 7, merchantId := 2, originalName := "a.jpg",
         fileType := .image, size := 1000 }] (by rfl),
   (C7_upload_acceptance sampleUsers 7 (some 9) [sampleIncoming] []).2
      .merchantNotFound (by rfl)⟩

theorem ledgerRows_append (a b : List DlEvent) :
    ledgerRows (a ++ b) = ledgerRows a ++ ledgerRows b := by
  simp [ledgerRows, List.filterMap_append]

theorem ledgerRows_map_record (mid : Nat) (t : DlType) (s : DlResult)
    (l : List FileUpload) :
    ledgerRows (l.map (fun p => recordDownloadStatus p.id mid t s))
      = l.map (fun p =>
          { fileId := p.id, merchantId := mid, downloadType := t, status := s }) := by
  induction l with
  | nil => rfl
  | cons x xs ih =>
    simp only [List.map_cons, ledgerRows, List.filterMap_cons, recordDownloadStatus] at ih ⊢
    rw [ih]

theorem countP_status_map (mid : Nat) (t : DlType) (s s' : DlResult)
    (l : List FileUpload) :
    ((l.map (fun p =>
        ({ fileId := p.id, merchantId := mid, downloadType := t,
           status := s } : DownloadRecordRow))).countP
      (fun r => r.status == s')) = if s = s' then l.length else 0 := by
  induction l with
  | nil => simp
  | cons x xs ih =>
    by_cases h : s = s' <;> simp [List.countP_cons, h, ih]

theorem length_filter_onDisk (photos : List FileUpload) (onDisk : Nat → Bool) :
    (photos.filter (fun p => onDisk p.id)).length
      + (photos.filter (fun p => !(onDisk p.id))).length = photos.length := by
  induction photos with
  | nil => rfl
  | cons x xs ih =>
    by_cases h : onDisk x.id <;> simp [List.filter_cons, h] <;> omega

theorem zipPhase_spec (mid : Nat) (photos : List FileUpload) (onDisk : Nat → Bool) :
    ((photos.filter (fun p => onDisk p.id)) ≠ [] →
      (zipPhase mid photos onDisk).1
          = .zipArchive ((photos.filter (fun p => onDisk p.id)).map (fun p => p.id))
      ∧ successCount (zipPhase mid photos onDisk).2 = photos.length
      ∧ failedCount (zipPhase mid photos onDisk).2
          = (photos.filter (fun p => !(onDisk p.id))).length)
    ∧ ((photos.filter (fun p => onDisk p.id)) = [] →
      (zipPhase mid photos onDisk).1 = .httpError 404
      ∧ successCount (zipPhase mid photos onDisk).2 = 0
      ∧ failedCount (zipPhase mid photos onDisk).2
          = (photos.filter (fun p => !(onDisk p.id))).length) := by
  constructor
  · intro hne
    unfold zipPhase
    rw [if_neg (by simpa [List.isEmpty_iff] using hne)]
    refine ⟨rfl, ?_, ?_⟩
    · simp only [successCount, ledgerRows_append, List.countP_append,
        ledgerRows_map_record, countP_status_map]
      simp [ledgerRows]
    · simp only [failedCount, ledgerRows_append, List.countP_append,
        ledgerRows_map_record, countP_status_map]
      simp [ledgerRows]
  · intro hnil
    unfold zipPhase
    rw [if_pos (by simpa [List.isEmpty_iff] using hnil)]
    refine ⟨rfl, ?_, ?_⟩
    · simp [successCount, ledgerRows_map_record, countP_status_map]
    · simp [failedCount, ledgerRows_map_record, countP_status_map]

/-- C2 (amended): in a batch download of N resolved active assets of which
exactly one is missing on disk (N at least 2), the response is an archive of
the other N−1 files and the ledger gains one failure row for the missing
file but N success rows — the archive-completion handler records a success
row for every resolved asset including the missing one; when all files are
missing the endpoint answers not-found with zero success rows. -/
theorem C2_batch_download_ledger (db : List FileUpload) (cid mid : Nat)
    (onDisk : Nat → Bool) :
    (((resolveActivePhotos db cid mid).filter (fun p => !(onDisk p.id))).length = 1 →
      2 ≤ (resolveActivePhotos db cid mid).length →
      (downloadAll db cid mid onDisk).1
          = .zipArchive (((resolveActivePhotos db cid mid).filter
              (fun p => onDisk p.id)).map (fun p => p.id))
        ∧ ((resolveActivePhotos db cid mid).filter (fun p => onDisk p.id)).length
            = (resolveActivePhotos db cid mid).length - 1
        ∧ successCount (downloadAll db cid mid onDisk).2
            = (resolveActivePhotos db cid mid).length
        ∧ failedCount (downloadAll db cid mid onDisk).2 = 1)
    ∧ ((∀ p ∈ resolveActivePhotos db cid mid, onDisk p.id = false) →
        resolveActivePhotos db cid mid ≠ [] →
        (downloadAll db cid mid onDisk).1 = .httpError 404
          ∧ successCount (downloadAll db cid mid onDisk).2 = 0) := by
  constructor
  · intro hmiss hN
    have hlen := length_filter_onDisk (resolveActivePhotos db cid mid) onDisk
    rw [hmiss] at hlen
    have hne : (resolveActivePhotos db cid mid).filter (fun p => onDisk p.id) ≠ [] := by
      intro hcontra
      rw [hcontra] at hlen
      simp only [List.length_nil, Nat.zero_add] at hlen
      omega
    have hphotos : ¬ (resolveActivePhotos db cid mid).isEmpty = true := by
      intro hcontra
      rw [List.isEmpty_iff] at hcontra
      rw [hcontra] at hN
      simp at hN
    have hda : downloadAll db cid mid onDisk
        = zipPhase mid (resolveActivePhotos db cid mid) onDisk := by
      unfold downloadAll
      rw [if_neg hphotos]
    rw [hda]
    obtain ⟨h1, h2, h3⟩ := (zipPhase_spec mid (resolveActivePhotos db cid mid) onDisk).1 hne
    exact ⟨h1, by omega, h2, by rw [h3, hmiss]⟩
  · intro hall hne
    have hnil : (resolveActivePhotos db cid mid).filter (fun p => onDisk p.id) = [] := by
      rw [List.filter_eq_nil]
      intro p hp
      simp [hall p hp]
    have hphotos : ¬ (resolveActivePhotos db cid mid).isEmpty = true := by
      intro hcontra
      rw [List.isEmpty_iff] at hcontra
      exact hne hcontra
    have hda : downloadAll db cid mid onDisk
        = zipPhase mid (resolveActivePhotos db cid mid) onDisk := by
      unfold downloadAll
      rw [if_neg hphotos]
    rw [hda]
    obtain ⟨h1, h2, h3⟩ := (zipPhase_spec mid (resolveActivePhotos db cid mid) onDisk).2 hnil
    exact ⟨h1, h2⟩

/-- C2 counterexample: two resolved assets, the second missing on disk — the
archive holds one file but the ledger gains 2 success rows, not N−1 = 1. -/
theorem C2_batch_download_counterexample :
    (resolveActivePhotos [sampleFile, sampleFile2] 7 3).length = 2
    ∧ ((resolveActivePhotos [sampleFile, sampleFile2] 7 3).filter
        (fun p => !(onlyFirstOnDisk p.id))).length = 1
    ∧ (downloadAll [sampleFile, sampleFile2] 7 3 onlyFirstOnDisk).1
        = DlResponse.zipArchive [1]
    ∧ successCount (downloadAll [sampleFile, sampleFile2] 7 3 onlyFirstOnDisk).2 = 2
    ∧ successCount (downloadAll [sampleFile, sampleFile2] 7 3 onlyFirstOnDisk).2 ≠ 2 - 1 := by
  decide

/-- C2 witness: the amended count facts on the concrete two-asset store. -/
theorem C2_batch_download_ledger_witness :
    (downloadAll [sampleFile, sampleFile2] 7 3 onlyFirstOnDisk).1
        = .zipArchive (((resolveActivePhotos [sampleFile, sampleFile2] 7 3).filter
            (fun p => onlyFirstOnDisk p.id)).map (fun p => p.id))
    ∧ ((resolveActivePhotos [sampleFile, sampleFile2] 7 3).filter
          (fun p => onlyFirstOnDisk p.id)).length
        = (resolveActivePhotos [sampleFile, sampleFile2] 7 3).length - 1
    ∧ successCount (downloadAll [sampleFile, sampleFile2] 7 3 onlyFirstOnDisk).2
        = (resolveActivePhotos [sampleFile, sampleFile2] 7 3).length
    ∧ failedCount (downloadAll [sampleFile, sampleFile2] 7 3 onlyFirstOnDisk).2 = 1 :=
  (C2_batch_download_ledger [sampleFile, sampleFile2] 7 3 onlyFirstOnDisk).1
    (by decide) (by decide)

/-- C6 (amended): only the explicit-id-set variant bypasses ZIP construction
— when its resolved set is exactly one asset whose file exists it streams
that file directly; the all-active-assets variant never streams a single
file, it builds a ZIP archive even for one resolved asset. -/
theorem C6_single_file_bypass (db : List FileUpload) (ids : List Nat) (cid mid : Nat)
    (onDisk : Nat → Bool) (p : FileUpload) :
    (resolveSelectedPhotos db ids cid mid = [p] → onDisk p.id = true →
      (downloadSelected db ids cid mid onDisk).1 = .singleFile p.id)
    ∧ ∀ fid, (downloadAll db cid mid onDisk).1 ≠ .singleFile fid := by
  constructor
  · intro hres hdisk
    unfold downloadSelected
    rw [hres]
    simp [hdisk]
  · intro fid
    by_cases h : (resolveActivePhotos db cid mid).isEmpty = true
    · have hda : downloadAll db cid mid onDisk = (.httpError 404, []) := by
        unfold downloadAll
        rw [if_pos h]
      rw [hda]
      simp
    · have hda : downloadAll db cid mid onDisk
          = zipPhase mid (resolveActivePhotos db cid mid) onDisk := by
        unfold downloadAll
        rw [if_neg h]
      rw [hda]
      by_cases h2 : ((resolveActivePhotos db cid mid).filter
          (fun p => onDisk p.id)).isEmpty = true
      · have hz : zipPhase mid (resolveActivePhotos db cid mid) onDisk
            = (.httpError 404, ((resolveActivePhotos db cid mid).filter
                (fun p => !(onDisk p.id))).map
                  (fun p => recordDownloadStatus p.id mid .batch .failed)) := by
          unfold zipPhase
          rw [if_pos h2]
        rw [hz]
        simp
      · have hz : (zipPhase mid (resolveActivePhotos db cid mid) onDisk).1
            = .zipArchive (((resolveActivePhotos db cid mid).filter
                (fun p => onDisk p.id)).map (fun p => p.id)) := by
          unfold zipPhase
          rw [if_neg h2]
        rw [hz]
        simp

/-- C6 counterexample: one resolved active asset, present on disk — the
all-assets download still answers with a ZIP archive, not a single-file
stream. -/
theorem C6_single_file_counterexample :
    resolveActivePhotos [sampleFile] 7 3 = [sampleFile]
    ∧ onlyFirstOnDisk sampleFile.id = true
    ∧ (downloadAll [sampleFile] 7 3 onlyFirstOnDisk).1 = DlResponse.zipArchive [1]
    ∧ (downloadAll [sampleFile] 7 3 onlyFirstOnDisk).1
        ≠ DlResponse.singleFile sampleFile.id := by
  decide

/-- C6 witness: the selected-id variant on one resolved asset streams the
file directly. -/
theorem C6_single_file_bypass_witness :
    (downloadSelected [sampleFile] [1] 7 3 onlyFirstOnDisk).1
      = .singleFile sampleFile.id :=
  (C6_single_file_bypass [sampleFile] [1] 7 3 onlyFirstOnDisk sampleFile).1
    (by decide) (by decide)

/-- C9: in the batch-selected download with exactly one resolved asset whose
file exists, a `single`/`success` ledger row is recorded first, before the
operation log and before any file bytes are streamed — so the row exists
even if the stream later fails, and its type is `single`, not `batch`. -/
theorem C9_selected_single_ledger_order (db : List FileUpload) (ids : List Nat)
    (cid mid : Nat) (onDisk : Nat → Bool) (p : FileUpload)
    (hres : resolveSelectedPhotos db ids cid mid = [p]) (hdisk : onDisk p.id = true) :
    (downloadSelected db ids cid mid onDisk).2
      = [recordDownloadStatus p.id mid .single .success,
         DlEvent.oplog "download", DlEvent.stream p.id]
    ∧ ((downloadSelected db ids cid mid onDisk).2)[0]?
        = some (recordDownloadStatus p.id mid .single .success)
    ∧ ((downloadSelected db ids cid mid onDisk).2)[2]?
        = some (DlEvent.stream p.id)
    ∧ recordDownloadStatus p.id mid .single .success
        = DlEvent.ledger { fileId := p.id, merchantId := mid, downloadType := .single, status := .success } := by
  have hev : (downloadSelected db ids cid mid onDisk).2
      = [recordDownloadStatus p.id mid .single .success,
         DlEvent.oplog "download", DlEvent.stream p.id] := by
    unfold downloadSelected
    rw [hres]
    simp [hdisk]
  exact ⟨hev, by rw [hev]; rfl, by rw [hev]; rfl, rfl⟩

/-- C9 witness: the event order on the concrete single-asset request. -/
theorem C9_selected_single_ledger_order_witness :
    (downloadSelected [sampleFile] [1] 7 3 onlyFirstOnDisk).2
      = [recordDownloadStatus sampleFile.id 3 .single .success,
         DlEvent.oplog "download", DlEvent.stream sampleFile.id] :=
  (C9_selected_single_ledger_order [sampleFile] [1] 7 3 onlyFirstOnDisk sampleFile
    (by decide) (by decide)).1

end PhotoSystem
